import Mathlib

/-
Shallow embedding of the authoritative room-state core of the shared
dice-rolling application: the `GameState` module (js/state.js), the
`Protocol` module (js/protocol.js), and the host-side dispatcher handlers
of the DM page. JS objects used as string-keyed maps are embedded as
ordered association lists (insertion order, unique keys); JS truthiness
fallbacks (`x || y`) on strings, option-like fields and timestamps are
embedded explicitly.
-/

namespace DiceOnline

/-- One dice group of a resolved roll: `{sides, count, results}`. -/
structure DiceGroup where
  sides : Int
  count : Int
  results : List Int
deriving Repr, DecidableEq

/-- A roll record as stored in history and in table slots:
`{playerId, nick, dice, total, visibility, targets, timestamp}`.
`targets` and `timestamp` may be absent in raw records. -/
structure RollRecord where
  playerId : String
  nick : String
  dice : List DiceGroup
  total : Int
  visibility : String
  targets : Option (List String)
  timestamp : Option Nat
deriving Repr, DecidableEq

/-- A player entry: `{nick, avatarData, connected, table, autoclear}`. -/
structure Player where
  nick : String
  avatarData : Option String
  connected : Bool
  table : List RollRecord
  autoclear : Bool
deriving Repr, DecidableEq

/-- DM settings object. -/
structure Settings where
  critHit : Int
  critFail : Int
  autoclearSeconds : Int
  forceAutoclear : Bool
  notifyHidden : Bool
deriving Repr, DecidableEq

/-- The whole room state created by `GameState.create`. -/
structure RoomState where
  roomName : String
  dmNick : String
  dmAvatar : Option String
  dmPeerId : Option String
  dmTable : List RollRecord
  players : List (String × Player)
  history : List RollRecord
  settings : Settings
  createdAt : Nat
deriving Repr, DecidableEq

/-- Entry of the list produced by `getPlayerList`. -/
structure PlayerSummary where
  id : String
  nick : String
  avatarData : Option String
  connected : Bool
deriving Repr, DecidableEq

/-- First-match lookup in a JS-object-as-association-list. -/
def lookupKey : List (String × α) → String → Option α
  | [], _ => none
  | (k, v) :: rest, key => if k = key then some v else lookupKey rest key

/-- JS assignment `obj[key] = v`: update in place if the key exists,
append at the end otherwise. -/
def setKey : List (String × α) → String → α → List (String × α)
  | [], key, v => [(key, v)]
  | (k, w) :: rest, key, v =>
    if k = key then (key, v) :: rest else (k, w) :: setKey rest key v

/-- JS `delete obj[key]`. A JS object holds each key at most once, so
removing every matching entry agrees with removing the binding. -/
def eraseKey (l : List (String × α)) (key : String) : List (String × α) :=
  l.filter (fun e => e.1 ≠ key)

/-- JS `a || b` for string-or-absent values: `null`, `undefined` and the
empty string are falsy. -/
def jsOrString (a b : Option String) : Option String :=
  match a with
  | some s => if s = "" then b else some s
  | none => b

/-- JS `timestamp || Date.now()`: an absent timestamp and `0` are falsy. -/
def jsTimestamp (t : Option Nat) (now : Nat) : Nat :=
  match t with
  | some n => if n = 0 then now else n
  | none => now

namespace GameState

def MAX_HISTORY : Nat := 500

def defaultSettings : Settings :=
  { critHit := 20, critFail := 1, autoclearSeconds := 0,
    forceAutoclear := false, notifyHidden := false }

/-- Source `GameState.create(roomName, dmNick, dmAvatar)`; `Date.now()` passed in. -/
def create (roomName dmNick : String) (dmAvatar : Option String) (now : Nat) : RoomState :=
  { roomName := roomName, dmNick := dmNick, dmAvatar := dmAvatar,
    dmPeerId := none, dmTable := [], players := [], history := [],
    settings := defaultSettings, createdAt := now }

/-- Source `GameState.addPlayer`. -/
def addPlayer (s : RoomState) (peerId nick : String) (avatarData : Option String) : RoomState :=
  { s with
      players := setKey s.players peerId
        ({ nick := nick, avatarData := avatarData, connected := true,
           table := [], autoclear := false } : Player) }

/-- Source `GameState.removePlayer`. -/
def removePlayer (s : RoomState) (peerId : String) : RoomState :=
  { s with players := eraseKey s.players peerId }

/-- Source `GameState.disconnectPlayer`: flag `connected = false`, keep the data. -/
def disconnectPlayer (s : RoomState) (peerId : String) : RoomState :=
  match lookupKey s.players peerId with
  | some p => { s with players := setKey s.players peerId ({ p with connected := false }) }
  | none => s

/-- The scan of `reconnectPlayer`: first entry (in insertion order) whose
nick matches and which is disconnected. -/
def findStale : List (String × Player) → String → Option (String × Player)
  | [], _ => none
  | (id, p) :: rest, nick =>
    if p.nick = nick ∧ p.connected = false then some (id, p) else findStale rest nick

/-- Source `GameState.reconnectPlayer`: move the stale entry's data to the new
peer id (connected, avatar overwritten when truthy), delete the old key,
return the old id; `none` and no change when there is no stale match. -/
def reconnectPlayer (s : RoomState) (newPeerId nick : String) (avatarData : Option String) :
    Option String × RoomState :=
  match findStale s.players nick with
  | some (oldPeerId, p) =>
      let playerData : Player :=
        { p with connected := true, avatarData := jsOrString avatarData p.avatarData }
      (some oldPeerId,
       { s with players := setKey (eraseKey s.players oldPeerId) newPeerId playerData })
  | none => (none, s)

/-- The `history.push(r)` step followed by the cap: `slice(-MAX_HISTORY)` when the
length exceeds `MAX_HISTORY`. -/
def pushHistory (h : List RollRecord) (r : RollRecord) : List RollRecord :=
  let h1 := h ++ [r]
  if MAX_HISTORY < h1.length then h1.drop (h1.length - MAX_HISTORY) else h1

/-- The in-place table merge shared by `addRoll` and `addDmTableRoll`:
concatenate dice groups into the existing slot, add totals, refresh the
timestamp; on an empty table store a copy of the record. -/
def mergeTable (table : List RollRecord) (r : RollRecord) (now : Nat) : List RollRecord :=
  match table with
  | existing :: rest =>
      { existing with
          dice := existing.dice ++ r.dice,
          total := existing.total + r.total,
          timestamp := some (jsTimestamp r.timestamp now) } :: rest
  | [] => [r]

/-- Source `GameState.addRoll`: no-op when the participant is absent; otherwise
push to capped history and merge into the participant's table. -/
def addRoll (s : RoomState) (peerId : String) (r : RollRecord) (now : Nat) : RoomState :=
  match lookupKey s.players peerId with
  | none => s
  | some player =>
      { s with
          history := pushHistory s.history r,
          players := setKey s.players peerId
            ({ player with table := mergeTable player.table r now }) }

/-- Source `GameState.addDmRoll`: push to capped history only. -/
def addDmRoll (s : RoomState) (r : RollRecord) : RoomState :=
  { s with history := pushHistory s.history r }

/-- Source `GameState.addDmTableRoll`: replace the DM table when autoclear is on
or the table is empty, else merge. -/
def addDmTableRoll (s : RoomState) (r : RollRecord) (autoclear : Bool) (now : Nat) : RoomState :=
  if autoclear = true ∨ s.dmTable.length = 0 then { s with dmTable := [r] }
  else { s with dmTable := mergeTable s.dmTable r now }

/-- Source `GameState.clearDmTable`. -/
def clearDmTable (s : RoomState) : RoomState := { s with dmTable := [] }

/-- Source `GameState.clearTable`: a null or undefined id clears every player table
(not the DM table); a present id clears that table; unknown id: no-op. -/
def clearTable (s : RoomState) (peerId : Option String) : RoomState :=
  match peerId with
  | none => { s with players := s.players.map (fun e => (e.1, { e.2 with table := [] })) }
  | some pid =>
      match lookupKey s.players pid with
      | some p => { s with players := setKey s.players pid ({ p with table := [] }) }
      | none => s

/-- Source `GameState.updatePlayerProfile`. -/
def updatePlayerProfile (s : RoomState) (peerId nick : String) (avatarData : Option String) :
    RoomState :=
  if peerId = "dm" then { s with dmNick := nick, dmAvatar := avatarData }
  else
    match lookupKey s.players peerId with
    | some p =>
        { s with
            players := setKey s.players peerId
              ({ p with nick := nick, avatarData := avatarData }) }
    | none => s

/-- Source `GameState.clearHistory`. -/
def clearHistory (s : RoomState) : RoomState := { s with history := [] }

/-- Source `GameState.getPlayerList`. -/
def getPlayerList (s : RoomState) : List PlayerSummary :=
  s.players.map (fun e =>
    { id := e.1, nick := e.2.nick, avatarData := e.2.avatarData, connected := e.2.connected })

/-- Source `GameState.toJSON`: a structural deep copy (`structuredClone`), which
on pure values is the value itself. -/
def toJSON (s : RoomState) : RoomState := s

/-- Source `GameState.fromJSON` restricted to well-typed snapshots: reject a
falsy `roomName`, refill the other fields through their `||` defaults. -/
def fromJSON (json : RoomState) (now : Nat) : Option RoomState :=
  if json.roomName = "" then none
  else some
    { roomName := json.roomName,
      dmNick := if json.dmNick = "" then "DM" else json.dmNick,
      dmAvatar := jsOrString json.dmAvatar none,
      dmPeerId := jsOrString json.dmPeerId none,
      dmTable := json.dmTable,
      players := json.players,
      history := json.history,
      settings := json.settings,
      createdAt := if json.createdAt = 0 then now else json.createdAt }

/-- Source `GameState.isRollVisibleTo`. -/
def isRollVisibleTo (roll : RollRecord) (viewerPeerId : String) : Bool :=
  if roll.visibility = "PUBLIC" then true
  else if roll.playerId = viewerPeerId then true
  else if roll.visibility = "TARGETED" ∧ viewerPeerId ∈ roll.targets.getD [] then true
  else false

/-- Source `GameState.createPlayerView`: deep-copy the state, filter every
player table and the history by `isRollVisibleTo`. The source does not
filter `dmTable`, and neither does this embedding. -/
def createPlayerView (s : RoomState) (viewerPeerId : String) : RoomState :=
  let view := toJSON s
  { view with
      players := view.players.map (fun e =>
        (e.1, { e.2 with table := e.2.table.filter (fun r => isRollVisibleTo r viewerPeerId) })),
      history := view.history.filter (fun r => isRollVisibleTo r viewerPeerId) }

end GameState

namespace Protocol

def MAX_DICE_PER_GROUP : Int := 100

def MAX_DICE_GROUPS : Nat := 20

/-- One requested dice group `{sides, count}` of a ROLL_REQUEST. -/
structure DiceGroupSpec where
  sides : Int
  count : Int
deriving Repr, DecidableEq

/-- Inbound messages the host dispatcher switches on. A ROLL_REQUEST
carries its dice spec, visibility string and optional targets list. -/
inductive InMsg where
  | playerInfo (nick : String) (avatarData : Option String)
  | rollRequest (dice : List DiceGroupSpec) (visibility : String) (targets : Option (List String))
  | clearMyTable
  | updateProfile (nick : String) (avatarData : Option String)
deriving Repr, DecidableEq

/-- The per-group bound checks of `isValidDiceSpec`; the source's
`typeof === 'number'` and `Number.isInteger` checks hold by the `Int`
embedding of JS numbers in dice specs. -/
def validGroup (d : DiceGroupSpec) : Bool :=
  decide (2 ≤ d.sides) && decide (1 ≤ d.count) && decide (d.count ≤ MAX_DICE_PER_GROUP)

/-- Source `Protocol.isValidDiceSpec`: a non-empty list of at most
`MAX_DICE_GROUPS` groups, every group within bounds. -/
def isValidDiceSpec (dice : List DiceGroupSpec) : Bool :=
  if dice.length = 0 ∨ MAX_DICE_GROUPS < dice.length then false
  else dice.all validGroup

def VALID_VISIBILITY : List String := ["PUBLIC", "PRIVATE", "TARGETED"]

/-- Source `Protocol.isValidRollRequest`: right message type, valid dice spec,
visibility in the enum. -/
def isValidRollRequest (msg : InMsg) : Bool :=
  match msg with
  | .rollRequest dice visibility _ =>
      isValidDiceSpec dice && VALID_VISIBILITY.contains visibility
  | _ => false

/-- Source `Protocol.createRollResult` (no explicit timestamp argument at the
dispatcher call sites, so `timestamp || Date.now()` yields `now`). -/
def createRollResult (playerId nick : String) (dice : List DiceGroup) (total : Int)
    (visibility : String) (targets : Option (List String)) (now : Nat) : RollRecord :=
  { playerId := playerId, nick := nick, dice := dice, total := total,
    visibility := visibility, targets := some (targets.getD []),
    timestamp := some now }

end Protocol

/-- Outbound wire messages the dispatcher emits (payloads relevant to the
modelled handlers). -/
inductive WireMsg where
  | rollResultMsg (r : RollRecord)
  | stateSync (v : RoomState)
  | playerLeft (playerId nick : String)
  | playerKicked (playerId nick : String)
  | tableCleared (playerId : Option String)
  | playerListMsg (players : List PlayerSummary)
deriving Repr, DecidableEq

/-- A transport effect: targeted send or broadcast. -/
inductive OutMsg where
  | sendTo (peerId : String) (msg : WireMsg)
  | broadcast (msg : WireMsg)
deriving Repr, DecidableEq

namespace Dispatcher

/-- Add to a JS `Set` modelled as a deduplicated list in insertion order. -/
def insertUnique (l : List String) (x : String) : List String :=
  if x ∈ l then l else l ++ [x]

/-- Model of `new Set(list)`: first occurrences, insertion order. -/
def jsSet (l : List String) : List String := l.foldl insertUnique []

/-- DM-page `handleRollRequest`: drop invalid requests silently, drop
requests from unknown peers, otherwise build the roll result from the
dice-engine outcome (passed in as `rolled`), store it via `addRoll`, and
route the result by visibility. -/
def handleRollRequest (s : RoomState) (peerId : String) (msg : Protocol.InMsg)
    (rolled : List DiceGroup × Int) (now : Nat) : RoomState × List OutMsg :=
  if Protocol.isValidRollRequest msg then
    match msg, lookupKey s.players peerId with
    | .rollRequest _ visibility targets, some player =>
        let rollResult :=
          Protocol.createRollResult peerId player.nick rolled.1 rolled.2 visibility targets now
        let s1 := GameState.addRoll s peerId rollResult now
        let outs : List OutMsg :=
          if visibility = "PUBLIC" then [.broadcast (.rollResultMsg rollResult)]
          else if visibility = "PRIVATE" then [.sendTo peerId (.rollResultMsg rollResult)]
          else if visibility = "TARGETED" then
            (insertUnique (jsSet (targets.getD [])) peerId).map
              (fun t => .sendTo t (.rollResultMsg rollResult))
          else []
        (s1, outs)
    | _, _ => (s, [])
  else (s, [])

/-- DM-page `onPlayerDisconnected` transport callback: for a known peer,
remove the player record entirely, broadcast PLAYER_LEFT and the
refreshed player list; unknown peer: no-op. -/
def onPlayerDisconnected (s : RoomState) (peerId : String) : RoomState × List OutMsg :=
  match lookupKey s.players peerId with
  | none => (s, [])
  | some player =>
      let s1 := GameState.removePlayer s peerId
      (s1, [.broadcast (.playerLeft peerId player.nick),
            .broadcast (.playerListMsg (GameState.getPlayerList s1))])

/-- DM-page `kickPlayer`: send PLAYER_KICKED to the target, remove the
record, broadcast PLAYER_LEFT and the refreshed player list. -/
def kickPlayer (s : RoomState) (peerId : String) : RoomState × List OutMsg :=
  match lookupKey s.players peerId with
  | none => (s, [])
  | some player =>
      let s1 := GameState.removePlayer s peerId
      (s1, [.sendTo peerId (.playerKicked peerId player.nick),
            .broadcast (.playerLeft peerId player.nick),
            .broadcast (.playerListMsg (GameState.getPlayerList s1))])

end Dispatcher

/-! Auxiliary definitions for the claim statements: iteration harnesses
and concrete rooms and records used in witnesses and counterexamples. -/

/-- The last `n` elements of a list (`slice(-n)` for an overfull list). -/
def lastN (n : Nat) (l : List α) : List α := l.drop (l.length - n)

/-- Iterated `addRoll` of a list of records for one participant. -/
def appendAll (s : RoomState) (pid : String) (now : Nat) (rs : List RollRecord) : RoomState :=
  rs.foldl (fun st r => GameState.addRoll st pid r now) s

/-- Iterated `addDmRoll` of a list of records. -/
def appendAllDm (s : RoomState) (rs : List RollRecord) : RoomState :=
  rs.foldl GameState.addDmRoll s

/-- The mutating Store operations quantified over by the invariant. -/
inductive StoreOp where
  | addPlayer (pid nick : String) (av : Option String)
  | removePlayer (pid : String)
  | disconnectPlayer (pid : String)
  | reconnectPlayer (newId nick : String) (av : Option String)
  | addRoll (pid : String) (r : RollRecord) (now : Nat)
  | addDmRoll (r : RollRecord)
  | addDmTableRoll (r : RollRecord) (auto : Bool) (now : Nat)
  | clearDmTable
  | clearTable (pid : Option String)
  | clearHistory
  | updatePlayerProfile (pid nick : String) (av : Option String)

/-- Interpretation of one Store operation on the room state. -/
def applyOp (s : RoomState) : StoreOp → RoomState
  | .addPlayer pid nick av => GameState.addPlayer s pid nick av
  | .removePlayer pid => GameState.removePlayer s pid
  | .disconnectPlayer pid => GameState.disconnectPlayer s pid
  | .reconnectPlayer newId nick av => (GameState.reconnectPlayer s newId nick av).2
  | .addRoll pid r now => GameState.addRoll s pid r now
  | .addDmRoll r => GameState.addDmRoll s r
  | .addDmTableRoll r auto now => GameState.addDmTableRoll s r auto now
  | .clearDmTable => GameState.clearDmTable s
  | .clearTable pid => GameState.clearTable s pid
  | .clearHistory => GameState.clearHistory s
  | .updatePlayerProfile pid nick av => GameState.updatePlayerProfile s pid nick av

/-- A sequence of Store operations applied in order. -/
def runOps (s : RoomState) (ops : List StoreOp) : RoomState := ops.foldl applyOp s

/-- Every participant table and the host table hold at most one entry. -/
def tableOK (s : RoomState) : Prop :=
  (∀ e ∈ s.players, e.2.table.length ≤ 1) ∧ s.dmTable.length ≤ 1

/-- A PRIVATE roll by the host sitting in the host table. -/
def dmPrivateRoll : RollRecord :=
  { playerId := "dm", nick := "DM", dice := [⟨20, 1, [17]⟩], total := 17,
    visibility := "PRIVATE", targets := some [], timestamp := some 1000 }

/-- A room whose host table holds that PRIVATE roll, with one player. -/
def c1Room : RoomState :=
  { GameState.addPlayer (GameState.create "table1" "DM" none 0) "peer-1" "Alice" none
      with dmTable := [dmPrivateRoll] }

/-- Room with Alice at peer-1 for the C3 witness. -/
def c3Room : RoomState :=
  GameState.addPlayer (GameState.create "table1" "DM" none 0) "peer-1" "Alice" none

def c3P : Player :=
  { nick := "Alice", avatarData := none, connected := true, table := [], autoclear := false }

def c3R1 : RollRecord :=
  { playerId := "peer-1", nick := "Alice", dice := [⟨20, 1, [17]⟩], total := 17,
    visibility := "PUBLIC", targets := some [], timestamp := some 100 }

def c3R2 : RollRecord :=
  { playerId := "peer-1", nick := "Alice", dice := [⟨6, 2, [3, 5]⟩], total := 8,
    visibility := "PUBLIC", targets := some [], timestamp := some 200 }

def c4Roll : RollRecord :=
  { playerId := "peer-1", nick := "Alice", dice := [], total := 1,
    visibility := "PUBLIC", targets := some [], timestamp := some 1 }

def c4Room : RoomState :=
  GameState.addPlayer (GameState.create "table1" "DM" none 0) "peer-1" "Alice" none

/-- Fresh room with Gandalf at peer-1. -/
def c5Room0 : RoomState :=
  GameState.addPlayer (GameState.create "table1" "DM" (some "builtin:0") 0)
    "peer-1" "Gandalf" (some "builtin:2")

/-- State after Gandalf's transport drops (Store-level markDisconnected). -/
def c5Room1 : RoomState := GameState.disconnectPlayer c5Room0 "peer-1"

/-- State after Gandalf reconnects as peer-2. -/
def c5Room2 : RoomState := (GameState.reconnectPlayer c5Room1 "peer-2" "Gandalf" none).2

def c6InvalidMsg : Protocol.InMsg := .rollRequest [] "PUBLIC" (some [])

def c6Room : RoomState :=
  GameState.addPlayer (GameState.create "table1" "DM" none 0) "peer-1" "Alice" none

def c8Room : RoomState :=
  GameState.addPlayer (GameState.create "table1" "DM" none 3) "peer-1" "Alice" none

def c9Room : RoomState :=
  GameState.addPlayer (GameState.create "table1" "DM" none 0) "peer-1" "Gandalf" none

def c9P : Player :=
  { nick := "Gandalf", avatarData := none, connected := true, table := [], autoclear := false }


/-! Association-list lemmas shared by the theorems below. -/

theorem lookupKey_setKey_self (l : List (String × α)) (k : String) (v : α) :
    lookupKey (setKey l k v) k = some v := by
  induction l with
  | nil => simp [setKey, lookupKey]
  | cons e rest ih =>
    obtain ⟨k', w⟩ := e
    by_cases h : k' = k
    · simp [setKey, h, lookupKey]
    · simp [setKey, h, lookupKey, ih]

theorem lookupKey_eraseKey_self (l : List (String × α)) (k : String) :
    lookupKey (eraseKey l k) k = none := by
  induction l with
  | nil => rfl
  | cons e rest ih =>
    by_cases h : e.1 = k
    · simpa [eraseKey, List.filter, h] using ih
    · simpa [eraseKey, List.filter, h, lookupKey] using ih

theorem mem_setKey (l : List (String × α)) (k : String) (v : α) (e : String × α)
    (he : e ∈ setKey l k v) : e = (k, v) ∨ e ∈ l := by
  induction l with
  | nil => simpa [setKey] using he
  | cons f rest ih =>
    obtain ⟨k', w⟩ := f
    by_cases h : k' = k
    · simp [setKey, h] at he
      rcases he with he | he
      · exact Or.inl (by simp [he])
      · exact Or.inr (List.mem_cons_of_mem _ he)
    · simp [setKey, h] at he
      rcases he with he | he
      · exact Or.inr (by simp [he])
      · rcases ih he with h1 | h1
        · exact Or.inl h1
        · exact Or.inr (List.mem_cons_of_mem _ h1)

theorem mem_eraseKey (l : List (String × α)) (k : String) (e : String × α)
    (he : e ∈ eraseKey l k) : e ∈ l :=
  (List.mem_filter.mp he).1

theorem findStale_mem (l : List (String × Player)) (nick : String) (id : String) (p : Player)
    (h : GameState.findStale l nick = some (id, p)) : (id, p) ∈ l := by
  induction l with
  | nil => simp [GameState.findStale] at h
  | cons f rest ih =>
    obtain ⟨k', w⟩ := f
    by_cases hc : w.nick = nick ∧ w.connected = false
    · simp [GameState.findStale, hc] at h
      simp [h.1, h.2]
    · simp [GameState.findStale, hc] at h
      exact List.mem_cons_of_mem _ (ih h)

/-! Claim theorems. -/

/-- C2: the visibility predicate is total and holds exactly when the
record is PUBLIC, or the roller is the viewer, or the record is TARGETED
and the viewer is among its targets (absent targets behaving as empty). -/
theorem c2_visibility_characterization (r : RollRecord) (v : String) :
    GameState.isRollVisibleTo r v = true ↔
      (r.visibility = "PUBLIC" ∨ r.playerId = v ∨
        (r.visibility = "TARGETED" ∧ v ∈ r.targets.getD [])) := by
  unfold GameState.isRollVisibleTo
  split_ifs with h1 h2 h3 <;> simp_all

/-- C7: `addRoll` for a participant id absent from the players map leaves
the whole room state unchanged. -/
theorem c7_appendRoll_absent_noop (s : RoomState) (pid : String) (r : RollRecord) (now : Nat)
    (h : lookupKey s.players pid = none) :
    GameState.addRoll s pid r now = s := by
  unfold GameState.addRoll
  rw [h]

/-- Witness for C7 at a concrete fresh room and unknown id. -/
theorem c7_appendRoll_absent_noop_witness :
    lookupKey (GameState.create "table1" "DM" none 0).players "ghost" = none ∧
    GameState.addRoll (GameState.create "table1" "DM" none 0) "ghost"
      ({ playerId := "ghost", nick := "G", dice := [], total := 0,
         visibility := "PUBLIC", targets := none, timestamp := none }) 0 =
      GameState.create "table1" "DM" none 0 :=
  ⟨rfl, c7_appendRoll_absent_noop _ _ _ _ rfl⟩


/-- C1: `createPlayerView` does NOT filter the host table: the view built
for `peer-1` still contains the host's PRIVATE roll although
`isRollVisibleTo` rejects it for that viewer (participant tables and
history are filtered; the host table is copied unfiltered). -/
theorem c1_host_table_not_filtered :
    GameState.isRollVisibleTo dmPrivateRoll "peer-1" = false ∧
    (GameState.createPlayerView c1Room "peer-1").dmTable = [dmPrivateRoll] := by
  constructor <;> rfl


/-- C5: `resolveReconnection('peer-2','Gandalf')` after a disconnect of
peer-1 returns `'peer-1'`; afterwards `'peer-2'` holds the prior data with
`connected = true` and `'peer-1'` is gone; a further call whose only nick
match is connected returns none and changes nothing. -/
theorem c5_reconnection_scenario :
    GameState.reconnectPlayer c5Room1 "peer-2" "Gandalf" none = (some "peer-1", c5Room2) ∧
    lookupKey c5Room2.players "peer-2" =
      some { nick := "Gandalf", avatarData := some "builtin:2", connected := true,
             table := [], autoclear := false } ∧
    lookupKey c5Room2.players "peer-1" = none ∧
    GameState.reconnectPlayer c5Room2 "peer-3" "Gandalf" none = (none, c5Room2) := by
  refine ⟨?_, ?_, ?_, ?_⟩ <;> decide

/-! Lemmas about the capped history push and `addRoll`. -/

theorem pushHistory_of_lt (h : List RollRecord) (r : RollRecord)
    (hl : h.length < GameState.MAX_HISTORY) :
    GameState.pushHistory h r = h ++ [r] := by
  have hc : ¬ GameState.MAX_HISTORY < (h ++ [r]).length := by
    simp only [List.length_append, List.length_singleton]
    omega
  simp only [GameState.pushHistory]
  rw [if_neg hc]

theorem addRoll_present (s : RoomState) (pid : String) (p : Player) (r : RollRecord) (now : Nat)
    (hp : lookupKey s.players pid = some p) :
    GameState.addRoll s pid r now =
      { s with
          history := GameState.pushHistory s.history r,
          players := setKey s.players pid
            ({ p with table := GameState.mergeTable p.table r now }) } := by
  unfold GameState.addRoll
  rw [hp]

/-- C3: two rolls (totals 17 and 8, one dice group each) merged into an
initially empty table leave exactly one entry with total 25, the two dice
groups concatenated, and the second record's timestamp, while history
receives both records individually. -/
theorem c3_merge_two_rolls (s : RoomState) (pid : String) (p : Player)
    (r1 r2 : RollRecord) (now1 now2 t2 : Nat)
    (hp : lookupKey s.players pid = some p) (htab : p.table = [])
    (h1t : r1.total = 17) (h1d : r1.dice.length = 1)
    (h2t : r2.total = 8) (h2d : r2.dice.length = 1)
    (hts : r2.timestamp = some t2) (ht2 : t2 ≠ 0)
    (hh : s.history.length + 2 ≤ GameState.MAX_HISTORY) :
    ∃ q : Player,
      lookupKey (GameState.addRoll (GameState.addRoll s pid r1 now1) pid r2 now2).players pid
        = some q ∧
      q.table = [{ r1 with dice := r1.dice ++ r2.dice, total := 25, timestamp := some t2 }] ∧
      (r1.dice ++ r2.dice).length = 2 ∧
      (GameState.addRoll (GameState.addRoll s pid r1 now1) pid r2 now2).history
        = s.history ++ [r1, r2] := by
  have hA : GameState.addRoll s pid r1 now1 =
      { s with
          history := s.history ++ [r1],
          players := setKey s.players pid ({ p with table := [r1] }) } := by
    rw [addRoll_present s pid p r1 now1 hp, pushHistory_of_lt _ _ (by omega), htab]
    rfl
  have hlook1 : lookupKey (GameState.addRoll s pid r1 now1).players pid
      = some ({ p with table := [r1] }) := by
    rw [hA]
    exact lookupKey_setKey_self _ _ _
  have hB : GameState.addRoll (GameState.addRoll s pid r1 now1) pid r2 now2 =
      { s with
          history := s.history ++ [r1, r2],
          players := setKey (setKey s.players pid ({ p with table := [r1] })) pid
            ({ p with table := [{ r1 with dice := r1.dice ++ r2.dice, total := 25, timestamp := some t2 }] }) } := by
    rw [addRoll_present _ _ _ r2 now2 hlook1, hA]
    have hlen : (s.history ++ [r1]).length < GameState.MAX_HISTORY := by
      simp only [List.length_append, List.length_singleton]
      omega
    rw [pushHistory_of_lt _ _ hlen]
    simp only [GameState.mergeTable, jsTimestamp, hts, h1t, h2t]
    rw [if_neg ht2]
    norm_num
  refine ⟨{ p with table := [{ r1 with dice := r1.dice ++ r2.dice, total := 25, timestamp := some t2 }] },
    ?_, rfl, ?_, ?_⟩
  · rw [hB]
    exact lookupKey_setKey_self _ _ _
  · simp [h1d, h2d]
  · rw [hB]


/-- Witness for C3: the merge scenario at a concrete room and rolls. -/
theorem c3_merge_two_rolls_witness :
    lookupKey c3Room.players "peer-1" = some c3P ∧ c3P.table = [] ∧
    c3R1.total = 17 ∧ c3R1.dice.length = 1 ∧ c3R2.total = 8 ∧ c3R2.dice.length = 1 ∧
    c3R2.timestamp = some 200 ∧ (200 : Nat) ≠ 0 ∧
    c3Room.history.length + 2 ≤ GameState.MAX_HISTORY ∧
    (∃ q : Player,
      lookupKey (GameState.addRoll (GameState.addRoll c3Room "peer-1" c3R1 100)
          "peer-1" c3R2 200).players "peer-1" = some q ∧
      q.table = [{ c3R1 with dice := c3R1.dice ++ c3R2.dice, total := 25, timestamp := some 200 }] ∧
      (c3R1.dice ++ c3R2.dice).length = 2 ∧
      (GameState.addRoll (GameState.addRoll c3Room "peer-1" c3R1 100) "peer-1" c3R2 200).history
        = c3Room.history ++ [c3R1, c3R2]) :=
  ⟨by decide, by decide, by decide, by decide, by decide, by decide, by decide, by decide, by decide,
   c3_merge_two_rolls c3Room "peer-1" c3P c3R1 c3R2 100 200 200 (by decide) (by decide) (by decide)
     (by decide) (by decide) (by decide) (by decide) (by decide) (by decide)⟩

/-! The history cap: lemmas about the trim as a last-n operation. -/


theorem pushHistory_eq_lastN (h : List RollRecord) (r : RollRecord) :
    GameState.pushHistory h r = lastN GameState.MAX_HISTORY (h ++ [r]) := by
  simp only [GameState.pushHistory, lastN]
  by_cases hc : GameState.MAX_HISTORY < (h ++ [r]).length
  · rw [if_pos hc]
  · rw [if_neg hc]
    have h0 : (h ++ [r]).length - GameState.MAX_HISTORY = 0 := by omega
    rw [h0, List.drop_zero]

theorem lastN_lastN_append (n : Nat) (l rs : List α) :
    lastN n (lastN n l ++ rs) = lastN n (l ++ rs) := by
  rcases le_or_lt l.length n with h | h
  · have h0 : l.length - n = 0 := by omega
    simp [lastN, h0]
  · unfold lastN
    rw [← List.drop_append_of_le_length (Nat.sub_le l.length n)]
    rw [List.drop_drop]
    simp only [List.length_drop, List.length_append]
    congr 1
    omega

theorem foldl_pushHistory_ne_nil (rs : List RollRecord) (h : List RollRecord) (hne : rs ≠ []) :
    rs.foldl GameState.pushHistory h = lastN GameState.MAX_HISTORY (h ++ rs) := by
  induction rs generalizing h with
  | nil => exact absurd rfl hne
  | cons r rs ih =>
    rw [List.foldl_cons]
    rcases eq_or_ne rs [] with hrs | hrs
    · subst hrs
      simp only [List.foldl_nil]
      rw [pushHistory_eq_lastN]
    · rw [ih _ hrs, pushHistory_eq_lastN, lastN_lastN_append]
      simp

theorem lastN_append_of_le (n : Nat) (h0 rs : List α) (h : n ≤ rs.length) :
    lastN n (h0 ++ rs) = lastN n rs := by
  unfold lastN
  rw [show (h0 ++ rs).length - n = h0.length + (rs.length - n) by simp; omega]
  rw [List.drop_append]

theorem addRoll_history_of_present (s : RoomState) (pid : String) (r : RollRecord) (now : Nat)
    (h : (lookupKey s.players pid).isSome) :
    (GameState.addRoll s pid r now).history = GameState.pushHistory s.history r := by
  obtain ⟨p, hp⟩ := Option.isSome_iff_exists.mp h
  rw [addRoll_present s pid p r now hp]

theorem addRoll_preserves_present (s : RoomState) (pid : String) (r : RollRecord) (now : Nat)
    (h : (lookupKey s.players pid).isSome) :
    (lookupKey (GameState.addRoll s pid r now).players pid).isSome := by
  obtain ⟨p, hp⟩ := Option.isSome_iff_exists.mp h
  rw [addRoll_present s pid p r now hp]
  simp [lookupKey_setKey_self]


theorem appendAll_history (rs : List RollRecord) (s : RoomState) (pid : String) (now : Nat)
    (h : (lookupKey s.players pid).isSome) :
    (appendAll s pid now rs).history = rs.foldl GameState.pushHistory s.history := by
  induction rs generalizing s with
  | nil => rfl
  | cons r rs ih =>
    calc (appendAll s pid now (r :: rs)).history
        = (appendAll (GameState.addRoll s pid r now) pid now rs).history := rfl
      _ = rs.foldl GameState.pushHistory (GameState.addRoll s pid r now).history :=
          ih _ (addRoll_preserves_present s pid r now h)
      _ = rs.foldl GameState.pushHistory (GameState.pushHistory s.history r) := by
          rw [addRoll_history_of_present s pid r now h]
      _ = (r :: rs).foldl GameState.pushHistory s.history := rfl

theorem appendAllDm_history (rs : List RollRecord) (s : RoomState) :
    (appendAllDm s rs).history = rs.foldl GameState.pushHistory s.history := by
  induction rs generalizing s with
  | nil => rfl
  | cons r rs ih =>
    calc (appendAllDm s (r :: rs)).history
        = (appendAllDm (GameState.addDmRoll s r) rs).history := rfl
      _ = rs.foldl GameState.pushHistory (GameState.addDmRoll s r).history := ih _
      _ = (r :: rs).foldl GameState.pushHistory s.history := rfl

/-- C4: appending `500 + k` records (k > 0) through `addRoll` for a
present participant, or through `addDmRoll`, leaves the history at
exactly `MAX_HISTORY = 500` entries: the most recent 500 appended
records in append order, the oldest having been evicted. -/
theorem c4_history_cap (s : RoomState) (pid : String) (now : Nat) (rs : List RollRecord) (k : Nat)
    (hk : 0 < k) (hlen : rs.length = GameState.MAX_HISTORY + k)
    (hp : (lookupKey s.players pid).isSome) :
    (appendAll s pid now rs).history = rs.drop (rs.length - GameState.MAX_HISTORY) ∧
    (appendAll s pid now rs).history.length = GameState.MAX_HISTORY ∧
    (appendAllDm s rs).history = rs.drop (rs.length - GameState.MAX_HISTORY) ∧
    (appendAllDm s rs).history.length = GameState.MAX_HISTORY := by
  have hne : rs ≠ [] := by
    intro hccc
    subst hccc
    simp at hlen
    omega
  have hge : GameState.MAX_HISTORY ≤ rs.length := by omega
  have key : rs.foldl GameState.pushHistory s.history
      = rs.drop (rs.length - GameState.MAX_HISTORY) := by
    rw [foldl_pushHistory_ne_nil rs s.history hne, lastN_append_of_le _ _ _ hge]
    rfl
  have hlenres : (rs.drop (rs.length - GameState.MAX_HISTORY)).length = GameState.MAX_HISTORY := by
    rw [List.length_drop]
    omega
  refine ⟨?_, ?_, ?_, ?_⟩
  · rw [appendAll_history rs s pid now hp, key]
  · rw [appendAll_history rs s pid now hp, key, hlenres]
  · rw [appendAllDm_history rs s, key]
  · rw [appendAllDm_history rs s, key, hlenres]


/-- Witness for C4 at a concrete room and 501 appended records. -/
theorem c4_history_cap_witness :
    (0 : Nat) < 1 ∧
    (List.replicate 501 c4Roll).length = GameState.MAX_HISTORY + 1 ∧
    (lookupKey c4Room.players "peer-1").isSome ∧
    ((appendAll c4Room "peer-1" 0 (List.replicate 501 c4Roll)).history =
        (List.replicate 501 c4Roll).drop
          ((List.replicate 501 c4Roll).length - GameState.MAX_HISTORY) ∧
      (appendAll c4Room "peer-1" 0 (List.replicate 501 c4Roll)).history.length
        = GameState.MAX_HISTORY ∧
      (appendAllDm c4Room (List.replicate 501 c4Roll)).history =
        (List.replicate 501 c4Roll).drop
          ((List.replicate 501 c4Roll).length - GameState.MAX_HISTORY) ∧
      (appendAllDm c4Room (List.replicate 501 c4Roll)).history.length
        = GameState.MAX_HISTORY) :=
  ⟨by decide, by rw [List.length_replicate]; decide, by decide,
   c4_history_cap c4Room "peer-1" 0 (List.replicate 501 c4Roll) 1 (by decide)
     (by rw [List.length_replicate]; decide) (by decide)⟩

theorem validGroup_iff (d : Protocol.DiceGroupSpec) :
    Protocol.validGroup d = true ↔ (2 ≤ d.sides ∧ 1 ≤ d.count ∧ d.count ≤ 100) := by
  simp [Protocol.validGroup, Protocol.MAX_DICE_PER_GROUP, and_assoc]

theorem isValidDiceSpec_iff (dice : List Protocol.DiceGroupSpec) :
    Protocol.isValidDiceSpec dice = true ↔
      (1 ≤ dice.length ∧ dice.length ≤ 20 ∧
        ∀ d ∈ dice, 2 ≤ d.sides ∧ 1 ≤ d.count ∧ d.count ≤ 100) := by
  unfold Protocol.isValidDiceSpec
  by_cases hlen : dice.length = 0 ∨ Protocol.MAX_DICE_GROUPS < dice.length
  · rw [if_pos hlen]
    simp only [Protocol.MAX_DICE_GROUPS] at hlen
    constructor
    · intro h
      exact absurd h (by simp)
    · rintro ⟨h1, h2, -⟩
      omega
  · rw [if_neg hlen]
    push_neg at hlen
    simp only [Protocol.MAX_DICE_GROUPS] at hlen
    simp only [List.all_eq_true, validGroup_iff]
    constructor
    · intro h
      exact ⟨by omega, by omega, h⟩
    · rintro ⟨-, -, h⟩
      exact h

theorem visibility_mem_iff (vis : String) :
    Protocol.VALID_VISIBILITY.contains vis = true ↔
      (vis = "PUBLIC" ∨ vis = "PRIVATE" ∨ vis = "TARGETED") := by
  simp [Protocol.VALID_VISIBILITY]

/-- C6: the dispatcher's validator accepts a ROLL_REQUEST exactly when
its dice spec has 1 to 20 groups with sides at least 2 and count in
[1,100] (integrality holding by the `Int` embedding) and its visibility
is PUBLIC, PRIVATE or TARGETED; an invalid ROLL_REQUEST makes the
handler return the state unchanged with no outbound message. -/
theorem c6_roll_request_validation :
    (∀ (dice : List Protocol.DiceGroupSpec) (vis : String) (targets : Option (List String)),
       Protocol.isValidRollRequest (.rollRequest dice vis targets) = true ↔
         (1 ≤ dice.length ∧ dice.length ≤ 20 ∧
          (∀ d ∈ dice, 2 ≤ d.sides ∧ 1 ≤ d.count ∧ d.count ≤ 100) ∧
          (vis = "PUBLIC" ∨ vis = "PRIVATE" ∨ vis = "TARGETED"))) ∧
    (∀ (s : RoomState) (pid : String) (msg : Protocol.InMsg)
       (rolled : List DiceGroup × Int) (now : Nat),
       Protocol.isValidRollRequest msg = false →
       Dispatcher.handleRollRequest s pid msg rolled now = (s, [])) := by
  constructor
  · intro dice vis targets
    simp only [Protocol.isValidRollRequest, Bool.and_eq_true, isValidDiceSpec_iff,
      visibility_mem_iff, and_assoc]
  · intro s pid msg rolled now h
    simp [Dispatcher.handleRollRequest, h]


/-- Witness for C6: a ROLL_REQUEST with an empty dice spec is invalid and
is dropped with no state change and no reply. -/
theorem c6_roll_request_validation_witness :
    Protocol.isValidRollRequest c6InvalidMsg = false ∧
    Dispatcher.handleRollRequest c6Room "peer-1" c6InvalidMsg ([], 0) 0 = (c6Room, []) :=
  ⟨by decide, c6_roll_request_validation.2 c6Room "peer-1" c6InvalidMsg ([], 0) 0 (by decide)⟩

/-- C8 counterexample: a room whose name is the empty string serializes
to a snapshot that `fromJSON` rejects (the `!json.roomName` guard), so
the round trip does not succeed for every room state. -/
theorem c8_roundtrip_counterexample :
    GameState.fromJSON (GameState.toJSON (GameState.create "" "DM" none 5)) 7 = none := by
  decide

/-- C8 amended: for every room whose name and host nick are non-empty
(the code treats a falsy roomName as missing and a falsy host nick as
absent, refilling it with "DM"), the round trip succeeds and preserves
roomName, host nick, participant count and history length. -/
theorem c8_roundtrip_amended (s : RoomState) (now : Nat)
    (h1 : s.roomName ≠ "") (h2 : s.dmNick ≠ "") :
    ∃ s2, GameState.fromJSON (GameState.toJSON s) now = some s2 ∧
      s2.roomName = s.roomName ∧ s2.dmNick = s.dmNick ∧
      s2.players.length = s.players.length ∧ s2.history.length = s.history.length := by
  unfold GameState.toJSON GameState.fromJSON
  rw [if_neg h1]
  exact ⟨_, rfl, rfl, by rw [if_neg h2], rfl, rfl⟩


/-- Witness for C8 at a concrete room with non-empty name and host nick. -/
theorem c8_roundtrip_amended_witness :
    c8Room.roomName ≠ "" ∧ c8Room.dmNick ≠ "" ∧
    (∃ s2, GameState.fromJSON (GameState.toJSON c8Room) 7 = some s2 ∧
      s2.roomName = c8Room.roomName ∧ s2.dmNick = c8Room.dmNick ∧
      s2.players.length = c8Room.players.length ∧
      s2.history.length = c8Room.history.length) :=
  ⟨by decide, by decide, c8_roundtrip_amended c8Room 7 (by decide) (by decide)⟩


/-- C9 counterexample: the dispatcher's disconnect step for the known
participant 'peer-1' deletes the participant record outright — afterwards
the key is gone, rather than present with `connected = false` and its
data preserved. -/
theorem c9_disconnect_counterexample :
    lookupKey c9Room.players "peer-1" = some c9P ∧
    lookupKey (Dispatcher.onPlayerDisconnected c9Room "peer-1").1.players "peer-1" = none := by
  constructor <;> decide

/-- C9 amended: a transport disconnect of a known participant removes the
participant record from the room (broadcasting PLAYER_LEFT and the
refreshed list) — the same removal a kick performs; the Store operation
`disconnectPlayer` (markDisconnected), which the dispatcher does not
invoke on disconnects, is the one that marks `connected = false` while
preserving nickname, avatar and table. -/
theorem c9_disconnect_amended (s : RoomState) (pid : String) (p : Player)
    (h : lookupKey s.players pid = some p) :
    Dispatcher.onPlayerDisconnected s pid =
      (GameState.removePlayer s pid,
       [.broadcast (.playerLeft pid p.nick),
        .broadcast (.playerListMsg (GameState.getPlayerList (GameState.removePlayer s pid)))]) ∧
    lookupKey (Dispatcher.onPlayerDisconnected s pid).1.players pid = none ∧
    lookupKey (GameState.disconnectPlayer s pid).players pid
      = some ({ p with connected := false }) ∧
    lookupKey (Dispatcher.kickPlayer s pid).1.players pid = none := by
  have h1 : Dispatcher.onPlayerDisconnected s pid =
      (GameState.removePlayer s pid,
       [.broadcast (.playerLeft pid p.nick),
        .broadcast (.playerListMsg (GameState.getPlayerList (GameState.removePlayer s pid)))]) := by
    simp only [Dispatcher.onPlayerDisconnected, h]
  refine ⟨h1, ?_, ?_, ?_⟩
  · rw [h1]
    exact lookupKey_eraseKey_self s.players pid
  · simp only [GameState.disconnectPlayer, h]
    exact lookupKey_setKey_self _ _ _
  · simp only [Dispatcher.kickPlayer, h]
    exact lookupKey_eraseKey_self s.players pid

/-- Witness for C9's amended statement at the concrete room. -/
theorem c9_disconnect_amended_witness :
    lookupKey c9Room.players "peer-1" = some c9P ∧
    (Dispatcher.onPlayerDisconnected c9Room "peer-1" =
      (GameState.removePlayer c9Room "peer-1",
       [.broadcast (.playerLeft "peer-1" c9P.nick),
        .broadcast (.playerListMsg
          (GameState.getPlayerList (GameState.removePlayer c9Room "peer-1")))]) ∧
     lookupKey (Dispatcher.onPlayerDisconnected c9Room "peer-1").1.players "peer-1" = none ∧
     lookupKey (GameState.disconnectPlayer c9Room "peer-1").players "peer-1"
       = some ({ c9P with connected := false }) ∧
     lookupKey (Dispatcher.kickPlayer c9Room "peer-1").1.players "peer-1" = none) :=
  ⟨by decide, c9_disconnect_amended c9Room "peer-1" c9P (by decide)⟩

/-! The table invariant: reachable states keep at most one entry per table. -/

theorem lookupKey_mem (l : List (String × α)) (k : String) (v : α)
    (h : lookupKey l k = some v) : (k, v) ∈ l := by
  induction l with
  | nil => simp [lookupKey] at h
  | cons e rest ih =>
    obtain ⟨k', w⟩ := e
    by_cases hk : k' = k
    · simp [lookupKey, hk] at h
      simp [hk, h]
    · simp [lookupKey, hk] at h
      exact List.mem_cons_of_mem _ (ih h)

theorem mergeTable_length_le (t : List RollRecord) (r : RollRecord) (now : Nat)
    (h : t.length ≤ 1) : (GameState.mergeTable t r now).length ≤ 1 := by
  cases t with
  | nil => simp [GameState.mergeTable]
  | cons a rest => simpa [GameState.mergeTable] using h


theorem tableOK_applyOp (s : RoomState) (op : StoreOp) (h : tableOK s) :
    tableOK (applyOp s op) := by
  obtain ⟨hp, hd⟩ := h
  cases op with
  | addPlayer pid nick av =>
      refine ⟨?_, hd⟩
      intro e he
      rcases mem_setKey _ _ _ _ he with rfl | he
      · simp
      · exact hp e he
  | removePlayer pid =>
      exact ⟨fun e he => hp e (mem_eraseKey _ _ _ he), hd⟩
  | disconnectPlayer pid =>
      simp only [applyOp, GameState.disconnectPlayer]
      cases hl : lookupKey s.players pid with
      | none => exact ⟨hp, hd⟩
      | some p =>
          refine ⟨?_, hd⟩
          intro e he
          rcases mem_setKey _ _ _ _ he with rfl | he
          · simpa using hp _ (lookupKey_mem _ _ _ hl)
          · exact hp e he
  | reconnectPlayer newId nick av =>
      simp only [applyOp, GameState.reconnectPlayer]
      cases hf : GameState.findStale s.players nick with
      | none => exact ⟨hp, hd⟩
      | some e =>
          obtain ⟨oldId, p⟩ := e
          refine ⟨?_, hd⟩
          intro f hf2
          rcases mem_setKey _ _ _ _ hf2 with rfl | hf2
          · simpa using hp _ (findStale_mem _ _ _ _ hf)
          · exact hp f (mem_eraseKey _ _ _ hf2)
  | addRoll pid r now =>
      simp only [applyOp, GameState.addRoll]
      cases hl : lookupKey s.players pid with
      | none => exact ⟨hp, hd⟩
      | some p =>
          refine ⟨?_, hd⟩
          intro e he
          rcases mem_setKey _ _ _ _ he with rfl | he
          · simpa using mergeTable_length_le _ _ _ (hp _ (lookupKey_mem _ _ _ hl))
          · exact hp e he
  | addDmRoll r =>
      exact ⟨hp, hd⟩
  | addDmTableRoll r auto now =>
      simp only [applyOp, GameState.addDmTableRoll]
      by_cases hc : auto = true ∨ s.dmTable.length = 0
      · rw [if_pos hc]
        exact ⟨hp, by simp⟩
      · rw [if_neg hc]
        exact ⟨hp, mergeTable_length_le _ _ _ hd⟩
  | clearDmTable =>
      exact ⟨hp, by simp [applyOp, GameState.clearDmTable]⟩
  | clearTable pid =>
      cases pid with
      | none =>
          refine ⟨?_, hd⟩
          intro e he
          simp only [applyOp, GameState.clearTable] at he
          obtain ⟨f, hf, rfl⟩ := List.mem_map.mp he
          simp
      | some pid =>
          simp only [applyOp, GameState.clearTable]
          cases hl : lookupKey s.players pid with
          | none => exact ⟨hp, hd⟩
          | some p =>
              refine ⟨?_, hd⟩
              intro e he
              rcases mem_setKey _ _ _ _ he with rfl | he
              · simp
              · exact hp e he
  | clearHistory =>
      exact ⟨hp, hd⟩
  | updatePlayerProfile pid nick av =>
      simp only [applyOp, GameState.updatePlayerProfile]
      by_cases hdm : pid = "dm"
      · rw [if_pos hdm]
        exact ⟨hp, hd⟩
      · rw [if_neg hdm]
        cases hl : lookupKey s.players pid with
        | none => exact ⟨hp, hd⟩
        | some p =>
            refine ⟨?_, hd⟩
            intro e he
            rcases mem_setKey _ _ _ _ he with rfl | he
            · simpa using hp _ (lookupKey_mem _ _ _ hl)
            · exact hp e he

theorem tableOK_runOps (s : RoomState) (ops : List StoreOp) (h : tableOK s) :
    tableOK (runOps s ops) := by
  induction ops generalizing s with
  | nil => exact h
  | cons op ops ih => exact ih _ (tableOK_applyOp s op h)

/-- C10: in every state reachable from `create` by any sequence of Store
operations, every participant table and the host table contain at most
one roll entry. -/
theorem c10_table_at_most_one (ops : List StoreOp) (roomName dmNick : String)
    (av : Option String) (now : Nat) :
    tableOK (runOps (GameState.create roomName dmNick av now) ops) :=
  tableOK_runOps _ ops ⟨by simp [GameState.create], by simp [GameState.create]⟩

end DiceOnline
